import Mathlib

/-!
Verification of the taxonomy-subset pipeline
(`scripts/fetch_taxonomy_subset.py`).

The script is a linear pipeline: fetch a plain-text taxonomy, filter its
lines by fixed category patterns, pad with a fallback list when fewer than
15 lines match, sort, truncate to 20, and serialize a JSON record.  The
definitions below are a shallow embedding of that script: the network
fetch is modelled by its result (`Option String`: `none` when
`fetch_taxonomy` caught an exception and returned `None`), and everything
downstream is the pure text transformation the script performs.
-/

namespace Taxonomy

/-- Python's `str.strip()` whitespace class (Unicode whitespace):
U+0009..U+000D, U+001C..U+001F, space, U+0085, U+00A0, U+1680,
U+2000..U+200A, U+2028, U+2029, U+202F, U+205F, U+3000. -/
def isPySpace (c : Char) : Bool :=
  let n := c.toNat
  (decide (9 ≤ n) && decide (n ≤ 13)) ||
  (decide (28 ≤ n) && decide (n ≤ 31)) ||
  n == 32 || n == 0x85 || n == 0xa0 || n == 0x1680 ||
  (decide (0x2000 ≤ n) && decide (n ≤ 0x200a)) ||
  n == 0x2028 || n == 0x2029 || n == 0x202f || n == 0x205f || n == 0x3000

/-- Python `s.strip()`: drop leading and trailing whitespace. -/
def pyStrip (s : String) : String :=
  String.mk (((s.data.dropWhile isPySpace).reverse.dropWhile isPySpace).reverse)

/-- Python `s.split('\n')` on the character list: split at every newline,
keeping empty pieces (so the empty string yields `[[]]`, matching
`"".split('\n') == ['']`). -/
def splitLinesAux : List Char → List Char → List (List Char)
  | [], acc => [acc.reverse]
  | c :: cs, acc =>
    if c = '\n' then acc.reverse :: splitLinesAux cs []
    else splitLinesAux cs (c :: acc)

/-- Python `s.split('\n')`. -/
def splitLines (s : String) : List String :=
  (splitLinesAux s.data []).map String.mk

/-- `p` is a prefix of `s` (Python `s.startswith(p)`; also `re.match(pat, s)`
for a pattern that is a literal, since `re.match` anchors at the start). -/
def strStartsWith (p s : String) : Bool :=
  p.data.isPrefixOf s.data

/-- The 11 `target_patterns` of the script, with the leading `^` removed:
each pattern is a regex metacharacter-free literal, and `re.match` anchors
at the start, so matching a pattern is exactly a prefix test on its body. -/
def target_patterns : List String :=
  ["Electronics",
   "Electronics > Audio",
   "Electronics > Cameras",
   "Electronics > Communications",
   "Electronics > Computers",
   "Electronics > Gaming",
   "Electronics > Home Audio",
   "Electronics > Mobile Phones",
   "Electronics > Tablets",
   "Electronics > Video",
   "Electronics > Wearables"]

/-- The inner pattern loop of `extract_electronics_categories`: the line is
appended exactly when some pattern matches (the `break` makes at most one
append per line occurrence, which `List.any` reflects). -/
def lineMatches (line : String) : Bool :=
  target_patterns.any (fun pat => strStartsWith pat line)

/-- The guard `if line and not line.startswith('#')` on a stripped line. -/
def keepLine (line : String) : Bool :=
  (line != "") && !(strStartsWith "#" line)

/-- The filtering loop of `extract_electronics_categories`: strip each line
of `content.strip().split('\n')` and keep the non-empty, non-comment lines
matched by some pattern, in original order. -/
def filteredCategories (content : String) : List String :=
  ((splitLines (pyStrip content)).map pyStrip).filter
    (fun line => keepLine line && lineMatches line)

/-- The `additional_categories` fallback list of the script, verbatim. -/
def additional_categories : List String :=
  ["Electronics > Audio > Headphones",
   "Electronics > Audio > Speakers",
   "Electronics > Cameras > Digital Cameras",
   "Electronics > Communications > Telephony > Mobile Phone Accessories",
   "Electronics > Communications > Telephony > Mobile Phones",
   "Electronics > Computers > Desktop Computers",
   "Electronics > Computers > Laptops",
   "Electronics > Computers > Tablets",
   "Electronics > Gaming > Video Game Consoles",
   "Electronics > Home Audio > Home Theater Systems",
   "Electronics > Mobile Phones > Smartphones",
   "Electronics > Video > Televisions",
   "Electronics > Wearables > Smartwatches",
   "Electronics > Wearables > Fitness Trackers"]

/-- One step of the fallback loop:
`if category not in electronics_categories: electronics_categories.append(category)`. -/
def padStep (acc : List String) (category : String) : List String :=
  if category ∈ acc then acc else acc ++ [category]

/-- The fallback block: only entered when fewer than 15 categories matched. -/
def padCategories (cats : List String) : List String :=
  if cats.length < 15 then additional_categories.foldl padStep cats else cats

/-- Lexicographic (codepoint) order on character lists: exactly Python's
string comparison used by `list.sort()` on strings. -/
def lexLe : List Char → List Char → Bool
  | [], _ => true
  | _ :: _, [] => false
  | a :: as, b :: bs =>
    if a < b then true else if b < a then false else lexLe as bs

/-- Python string `<=`: codepoint-lexicographic order. -/
def strLe (a b : String) : Prop :=
  lexLe a.data b.data = true

instance : DecidableRel strLe :=
  fun a b => instDecidableEqBool (lexLe a.data b.data) true

/-- `electronics_categories.sort()`: ascending codepoint-lexicographic sort
(Python's sort is stable; insertion sort is too). -/
def sortCats (cats : List String) : List String :=
  List.insertionSort strLe cats

/-- `extract_electronics_categories(content)`: the whole text
transformation, including the early `if not content: return []` and the
final `sort()` and `[:20]`. -/
def extract_electronics_categories (content : String) : List String :=
  if content = "" then []
  else (sortCats (padCategories (filteredCategories content))).take 20

/-- The `subset_data` dict written by `main`. -/
structure OutputRecord where
  source : String
  count : Nat
  categories : List String
  description : String
  lastUpdated : String
deriving DecidableEq

/-- The fixed source URL. -/
def taxonomy_url : String :=
  "https://www.google.com/basepages/producttype/taxonomy-with-ids.en-US.txt"

/-- `main`'s construction of `subset_data` from non-empty fetched text. -/
def buildRecord (content : String) : OutputRecord :=
  let categories := extract_electronics_categories content
  { source := taxonomy_url
    count := categories.length
    categories := categories
    description := "Curated subset of Google Product Taxonomy for electronics recommerce"
    lastUpdated := "2024-01-15" }

/-- `main`, modelled on the fetch result: `none` when `fetch_taxonomy`
caught an exception (it returns `None`), `some content` on HTTP success.
The result is the record written to `public/taxonomy-subset.json`, or
`none` when `main` prints a failure and returns early (`if not content`:
`None` and the empty string are both falsy). -/
def runMain (fetched : Option String) : Option OutputRecord :=
  match fetched with
  | none => none
  | some content =>
    if content = "" then none else some (buildRecord content)

/-- Lower-case hex digit, for JSON control-character escapes. -/
def hexDigit (n : Nat) : Char :=
  if n < 10 then Char.ofNat (48 + n) else Char.ofNat (87 + n)

/-- `json.dump` escaping of one character with `ensure_ascii=False`:
quote, backslash and control characters are escaped, everything else is
emitted verbatim. -/
def jsonEscapeChar (c : Char) : String :=
  if c = '"' then "\\\""
  else if c = '\\' then "\\\\"
  else if c = '\n' then "\\n"
  else if c = '\t' then "\\t"
  else if c = '\r' then "\\r"
  else if c.toNat = 8 then "\\b"
  else if c.toNat = 12 then "\\f"
  else if c.toNat < 32 then
    String.mk ['\\', 'u', '0', '0', hexDigit (c.toNat / 16), hexDigit (c.toNat % 16)]
  else String.mk [c]

/-- A JSON string literal as `json.dump(..., ensure_ascii=False)` emits it. -/
def jsonString (s : String) : String :=
  "\"" ++ String.join (s.data.map jsonEscapeChar) ++ "\""

/-- The `categories` array as `json.dump(..., indent=2)` lays it out at
nesting depth 1. -/
def jsonCategories (cats : List String) : String :=
  match cats with
  | [] => "[]"
  | _ => "[\n    " ++ String.intercalate ",\n    " (cats.map jsonString) ++ "\n  ]"

/-- The full file contents produced by
`json.dump(subset_data, f, indent=2, ensure_ascii=False)`. -/
def serializeRecord (r : OutputRecord) : String :=
  "\x7b\n  \"source\": " ++ jsonString r.source ++
  ",\n  \"count\": " ++ Nat.repr r.count ++
  ",\n  \"categories\": " ++ jsonCategories r.categories ++
  ",\n  \"description\": " ++ jsonString r.description ++
  ",\n  \"lastUpdated\": " ++ jsonString r.lastUpdated ++
  "\n\x7d"

/-- Claim C9's single-prefix-test filter, written from the claim's words: a
trimmed, non-empty, non-comment line is kept iff it starts with
"Electronics". -/
def specFilteredCategories (content : String) : List String :=
  ((splitLines (pyStrip content)).map pyStrip).filter
    (fun line => keepLine line && strStartsWith "Electronics" line)

/-! ### Order properties of the lexicographic comparison -/

theorem lexLe_total : ∀ a b : List Char, lexLe a b = true ∨ lexLe b a = true
  | [], _ => Or.inl rfl
  | _ :: _, [] => Or.inr rfl
  | a :: as, b :: bs => by
    simp only [lexLe]
    rcases lt_trichotomy a b with h | h | h
    · exact Or.inl (by simp [h])
    · subst h
      simpa [lt_irrefl] using lexLe_total as bs
    · exact Or.inr (by simp [h])

theorem lexLe_trans : ∀ a b c : List Char,
    lexLe a b = true → lexLe b c = true → lexLe a c = true
  | [], _, _, _, _ => rfl
  | _ :: _, [], _, hab, _ => by simp [lexLe] at hab
  | _ :: _, _ :: _, [], _, hbc => by simp [lexLe] at hbc
  | a :: as, b :: bs, c :: cs, hab, hbc => by
    simp only [lexLe] at hab hbc ⊢
    rcases lt_trichotomy a b with h1 | h1 | h1
    · rcases lt_trichotomy b c with h2 | h2 | h2
      · simp [lt_trans h1 h2]
      · subst h2; simp [h1]
      · simp [lt_asymm h2, h2] at hbc
    · subst h1
      rcases lt_trichotomy a c with h2 | h2 | h2
      · simp [h2]
      · subst h2
        simp only [lt_irrefl, if_false] at hab hbc ⊢
        exact lexLe_trans as bs cs hab hbc
      · simp [lt_asymm h2, h2] at hbc
    · simp [lt_asymm h1, h1] at hab

instance : IsTotal String strLe :=
  ⟨fun a b => lexLe_total a.data b.data⟩

instance : IsTrans String strLe :=
  ⟨fun a b c => lexLe_trans a.data b.data c.data⟩

/-! ### The eleven patterns collapse to one prefix test -/

theorem strStartsWith_trans {p q line : String}
    (hpq : strStartsWith p q = true) (hql : strStartsWith q line = true) :
    strStartsWith p line = true := by
  unfold strStartsWith at hpq hql ⊢
  rw [List.isPrefixOf_iff_prefix] at hpq hql ⊢
  exact hpq.trans hql

theorem lineMatches_eq (line : String) :
    lineMatches line = strStartsWith "Electronics" line := by
  have key : strStartsWith "Electronics" line = false →
      ∀ p : String, strStartsWith "Electronics" p = true →
        strStartsWith p line = false := by
    intro h p hp
    cases hpl : strStartsWith p line with
    | false => rfl
    | true => simp [strStartsWith_trans hp hpl] at h
  cases h : strStartsWith "Electronics" line with
  | true =>
    unfold lineMatches target_patterns
    simp only [List.any_cons]
    rw [h]
    simp
  | false =>
    unfold lineMatches target_patterns
    simp only [List.any_cons, List.any_nil]
    rw [h,
      key h "Electronics > Audio" (by decide),
      key h "Electronics > Cameras" (by decide),
      key h "Electronics > Communications" (by decide),
      key h "Electronics > Computers" (by decide),
      key h "Electronics > Gaming" (by decide),
      key h "Electronics > Home Audio" (by decide),
      key h "Electronics > Mobile Phones" (by decide),
      key h "Electronics > Tablets" (by decide),
      key h "Electronics > Video" (by decide),
      key h "Electronics > Wearables" (by decide)]
    rfl

/-! ### The fallback loop appends exactly the absent fallback entries -/

theorem foldl_padStep_eq : ∀ (L : List String) (acc : List String), L.Nodup →
    L.foldl padStep acc = acc ++ L.filter (fun a => decide (a ∉ acc))
  | [], acc, _ => by simp
  | a :: L, acc, h => by
    obtain ⟨ha, hL⟩ := List.nodup_cons.mp h
    simp only [List.foldl_cons, List.filter_cons]
    by_cases hmem : a ∈ acc
    · rw [show padStep acc a = acc from if_pos hmem]
      rw [foldl_padStep_eq L acc hL]
      simp [hmem]
    · rw [show padStep acc a = acc ++ [a] from if_neg hmem]
      rw [foldl_padStep_eq L (acc ++ [a]) hL]
      have hfil : L.filter (fun x => decide (x ∉ acc ++ [a])) =
          L.filter (fun x => decide (x ∉ acc)) := by
        apply List.filter_congr
        intro x hx
        have hxa : x ≠ a := fun e => ha (e ▸ hx)
        simp [List.mem_append, hxa]
      rw [hfil]
      simp [hmem, List.append_assoc]

theorem additional_categories_nodup : additional_categories.Nodup := by
  decide

theorem padCategories_eq (cats : List String) (h : cats.length < 15) :
    padCategories cats =
      cats ++ additional_categories.filter (fun a => decide (a ∉ cats)) := by
  unfold padCategories
  rw [if_pos h]
  exact foldl_padStep_eq additional_categories cats additional_categories_nodup

/-! ### Concrete inputs used by the scenario claims -/

/-- The fetched text of the spec's worked scenario. -/
def c5content : String :=
  "Electronics > Audio\nElectronics > Audio > Headphones\nRandomCategory\n# comment\n"

/-- A fetched text whose filtered sequence already has 15 entries. -/
def manyContent : String :=
  "Electronics\nElectronics\nElectronics\nElectronics\nElectronics\nElectronics\nElectronics\nElectronics\nElectronics\nElectronics\nElectronics\nElectronics\nElectronics\nElectronics\nElectronics"

/-- A fetched text in which the same matching line occurs twice. -/
def dupContent : String :=
  "Electronics\nElectronics"

/-! ### The claims -/

/-- Claim C1: for every fetched text, the written output record satisfies
`count = length categories` and `length categories ≤ 20`. -/
theorem c1_count_invariant (fetched : Option String) (r : OutputRecord)
    (h : runMain fetched = some r) :
    r.count = r.categories.length ∧ r.categories.length ≤ 20 := by
  cases fetched with
  | none => simp [runMain] at h
  | some c =>
    by_cases hc : c = ""
    · simp [runMain, hc] at h
    · simp only [runMain, if_neg hc, Option.some.injEq] at h
      subst h
      refine ⟨rfl, ?_⟩
      show (extract_electronics_categories c).length ≤ 20
      unfold extract_electronics_categories
      rw [if_neg hc, List.length_take]
      exact min_le_left _ _

/-- Witness for C1, at the fetched text "Electronics". -/
theorem c1_count_invariant_witness :
    (buildRecord "Electronics").count =
      (buildRecord "Electronics").categories.length ∧
    (buildRecord "Electronics").categories.length ≤ 20 :=
  c1_count_invariant (some "Electronics") (buildRecord "Electronics") rfl

/-- Claim C2: for every fetched text, the written categories list is sorted
in non-decreasing codepoint-lexicographic order, and it is the sorted
combined list truncated to its first 20 entries (truncation after
sorting). -/
theorem c2_sorted_truncated (c : String) (r : OutputRecord)
    (h : runMain (some c) = some r) :
    r.categories.Sorted strLe ∧
    r.categories = (sortCats (padCategories (filteredCategories c))).take 20 := by
  by_cases hc : c = ""
  · simp [runMain, hc] at h
  · simp only [runMain, if_neg hc, Option.some.injEq] at h
    subst h
    constructor
    · show (extract_electronics_categories c).Sorted strLe
      unfold extract_electronics_categories
      rw [if_neg hc]
      exact List.Pairwise.sublist (List.take_sublist 20 _)
        (List.sorted_insertionSort strLe _)
    · show extract_electronics_categories c = _
      unfold extract_electronics_categories
      rw [if_neg hc]

/-- Witness for C2, at the fetched text "Electronics". -/
theorem c2_sorted_truncated_witness :
    (buildRecord "Electronics").categories.Sorted strLe ∧
    (buildRecord "Electronics").categories =
      (sortCats (padCategories (filteredCategories "Electronics"))).take 20 :=
  c2_sorted_truncated "Electronics" (buildRecord "Electronics") rfl

/-- Claim C3: when fewer than 15 lines survive filtering, the
pre-truncation combined sequence contains every fallback entry, the absent
ones being appended in the fallback list's own order after the filtered
sequence, and its length lies between the filtered length and the filtered
length plus 14. -/
theorem c3_fallback_padding (c : String)
    (h : (filteredCategories c).length < 15) :
    (∀ cat ∈ additional_categories, cat ∈ padCategories (filteredCategories c)) ∧
    padCategories (filteredCategories c) =
      filteredCategories c ++
        additional_categories.filter (fun a => decide (a ∉ filteredCategories c)) ∧
    (filteredCategories c).length ≤ (padCategories (filteredCategories c)).length ∧
    (padCategories (filteredCategories c)).length ≤
      (filteredCategories c).length + 14 := by
  have heq := padCategories_eq (filteredCategories c) h
  have hlen := List.length_filter_le
    (fun a => decide (a ∉ filteredCategories c)) additional_categories
  have h14 : additional_categories.length = 14 := rfl
  refine ⟨?_, heq, ?_, ?_⟩
  · intro cat hcat
    rw [heq, List.mem_append]
    by_cases hmem : cat ∈ filteredCategories c
    · exact Or.inl hmem
    · exact Or.inr (List.mem_filter.mpr ⟨hcat, by simpa using hmem⟩)
  · rw [heq, List.length_append]
    omega
  · rw [heq, List.length_append]
    omega

/-- Witness for C3, at the fetched text "Electronics". -/
theorem c3_fallback_padding_witness :
    (filteredCategories "Electronics").length < 15 ∧
    ((∀ cat ∈ additional_categories,
        cat ∈ padCategories (filteredCategories "Electronics")) ∧
      padCategories (filteredCategories "Electronics") =
        filteredCategories "Electronics" ++
          additional_categories.filter
            (fun a => decide (a ∉ filteredCategories "Electronics")) ∧
      (filteredCategories "Electronics").length ≤
        (padCategories (filteredCategories "Electronics")).length ∧
      (padCategories (filteredCategories "Electronics")).length ≤
        (filteredCategories "Electronics").length + 14) :=
  ⟨by decide, c3_fallback_padding "Electronics" (by decide)⟩

/-- Claim C4: when at least 15 lines survive filtering, the fallback list
is not consulted (the padder is the identity) and the written categories
are the filtered sequence sorted and truncated to 20. -/
theorem c4_no_fallback (c : String)
    (h : 15 ≤ (filteredCategories c).length) :
    padCategories (filteredCategories c) = filteredCategories c ∧
    runMain (some c) = some (buildRecord c) ∧
    (buildRecord c).categories = (sortCats (filteredCategories c)).take 20 := by
  have hc : c ≠ "" := by
    intro he
    rw [he] at h
    exact absurd h (by decide)
  have hpad : padCategories (filteredCategories c) = filteredCategories c := by
    unfold padCategories
    rw [if_neg (by omega)]
  refine ⟨hpad, by simp [runMain, hc], ?_⟩
  show extract_electronics_categories c = _
  unfold extract_electronics_categories
  rw [if_neg hc, hpad]

/-- Witness for C4, at a fetched text with 15 matching lines. -/
theorem c4_no_fallback_witness :
    15 ≤ (filteredCategories manyContent).length ∧
    (padCategories (filteredCategories manyContent) =
        filteredCategories manyContent ∧
      runMain (some manyContent) = some (buildRecord manyContent) ∧
      (buildRecord manyContent).categories =
        (sortCats (filteredCategories manyContent)).take 20) :=
  ⟨by decide, c4_no_fallback manyContent (by decide)⟩

/-- Claim C5 counterexample: on the scenario text the filtered set is as
stated, but the fallback entry "Electronics > Audio > Headphones" is
already present in exactly that string form, so it is skipped: only 13 of
the 14 fallback entries are appended, not all 14. -/
theorem c5_scenario_counterexample :
    filteredCategories c5content =
      ["Electronics > Audio", "Electronics > Audio > Headphones"] ∧
    "Electronics > Audio > Headphones" ∈ additional_categories ∧
    "Electronics > Audio > Headphones" ∈ filteredCategories c5content ∧
    (padCategories (filteredCategories c5content)).length =
      (filteredCategories c5content).length + 13 := by
  decide

/-- Claim C5 as amended: on the scenario text the filtered set is
`["Electronics > Audio", "Electronics > Audio > Headphones"]`; its length
is below 15, so the absent fallback entries are appended — 13 of them,
`"Electronics > Audio > Headphones"` being skipped as already present —
and the final sorted/truncated list has 15 entries, at most 20, with
`count` equal to its length. -/
theorem c5_scenario_amended :
    filteredCategories c5content =
      ["Electronics > Audio", "Electronics > Audio > Headphones"] ∧
    (filteredCategories c5content).length < 15 ∧
    padCategories (filteredCategories c5content) =
      filteredCategories c5content ++
        additional_categories.filter
          (fun a => decide (a ∉ filteredCategories c5content)) ∧
    (additional_categories.filter
        (fun a => decide (a ∉ filteredCategories c5content))).length = 13 ∧
    (buildRecord c5content).count = (buildRecord c5content).categories.length ∧
    (buildRecord c5content).categories.length = 15 ∧
    (buildRecord c5content).categories.length ≤ 20 := by
  decide

/-- Claim C6 counterexample: the pipeline does not deduplicate — when the
same matching line occurs twice in the fetched text, the written
categories list contains that string twice. -/
theorem c6_duplicates_counterexample :
    runMain (some dupContent) = some (buildRecord dupContent) ∧
    (buildRecord dupContent).categories.count "Electronics" = 2 ∧
    ¬ (buildRecord dupContent).categories.Nodup := by
  refine ⟨rfl, by decide, by decide⟩

/-- Claim C6 as amended: the pattern match short-circuits, so each line
occurrence is appended at most once, and the multiplicity of a string in
the filtered sequence never exceeds its multiplicity among the stripped
lines of the fetched text; but repeated occurrences of the same line are
all kept, so the written output can contain duplicate strings. -/
theorem c6_no_dedup_amended (c s : String) :
    (filteredCategories c).count s ≤
      ((splitLines (pyStrip c)).map pyStrip).count s := by
  unfold filteredCategories
  exact List.Sublist.count_le (List.filter_sublist _) s

/-- Claim C7: a failed fetch makes the pipeline terminate early with no
record written, and on success of every step (non-empty body) exactly the
one built record is written. -/
theorem c7_fetch_failure :
    runMain none = none ∧
    ∀ c : String, c ≠ "" → runMain (some c) = some (buildRecord c) := by
  refine ⟨rfl, ?_⟩
  intro c hc
  simp [runMain, hc]

/-- Witness for C7, at the fetched text "Electronics > Video". -/
theorem c7_fetch_failure_witness :
    runMain none = none ∧
    runMain (some "Electronics > Video") =
      some (buildRecord "Electronics > Video") :=
  ⟨c7_fetch_failure.1, c7_fetch_failure.2 "Electronics > Video" (by decide)⟩

/-- Claim C8: the pipeline is deterministic in the fetched text — equal
fetched texts give byte-identical serialized JSON — and the `lastUpdated`,
`source` and `description` fields are fixed literals. -/
theorem c8_deterministic (c₁ c₂ : String) (h : c₁ = c₂) :
    serializeRecord (buildRecord c₁) = serializeRecord (buildRecord c₂) ∧
    (buildRecord c₁).lastUpdated = "2024-01-15" ∧
    (buildRecord c₁).source = taxonomy_url ∧
    (buildRecord c₁).description =
      "Curated subset of Google Product Taxonomy for electronics recommerce" := by
  subst h
  exact ⟨rfl, rfl, rfl, rfl⟩

/-- Witness for C8, at the fetched text "Electronics". -/
theorem c8_deterministic_witness :
    serializeRecord (buildRecord "Electronics") =
      serializeRecord (buildRecord "Electronics") ∧
    (buildRecord "Electronics").lastUpdated = "2024-01-15" ∧
    (buildRecord "Electronics").source = taxonomy_url ∧
    (buildRecord "Electronics").description =
      "Curated subset of Google Product Taxonomy for electronics recommerce" :=
  c8_deterministic "Electronics" "Electronics" rfl

/-- Claim C9: the 11-pattern match is extensionally a single prefix test —
a kept line matches some pattern iff it starts with "Electronics" — and
the whole filter equals the single-prefix-test filter. -/
theorem c9_single_prefix_refinement :
    (∀ line : String, lineMatches line = strStartsWith "Electronics" line) ∧
    ∀ c : String, filteredCategories c = specFilteredCategories c := by
  refine ⟨lineMatches_eq, ?_⟩
  intro c
  unfold filteredCategories specFilteredCategories
  apply List.filter_congr
  intro line _
  rw [lineMatches_eq]

/-- Claim C10: a successful fetch with an empty (falsy) body is treated
exactly like a fetch failure — `main` reports failure and writes nothing,
the same outcome as a raised fetch error. -/
theorem c10_empty_treated_as_failure :
    runMain (some "") = none ∧ runMain (some "") = runMain none :=
  ⟨rfl, rfl⟩

end Taxonomy
